import Mathlib

/-!
Shallow embedding of the storage layer (`app/storage/json_storage.py`) and the
WebSocket connection registry (`app/websocket/connection_manager.py`) of the
chat-relay service, together with the preset HTTP endpoint logic
(`app/api/preset.py`).

Modelling conventions:
* Timestamps are `Nat` values counting microseconds.  The Python code stores
  `datetime.now().isoformat()` strings and compares them lexicographically;
  for timestamps produced by `datetime.isoformat` that order coincides with
  chronological order, so a numeric model is faithful.
  `datetime.now().replace(microsecond=0)` becomes `truncToSecond`.
* A Python `dict` is an insertion-ordered association list `List (key × value)`
  with unique keys; `d[k] = v` is `setKey` (update in place, or append when the
  key is new), `del d[k]` is `eraseKey`, `k in d` is `(lookup k).isSome`.
* Conversation ids (opaque uuid strings) and channel handles are modelled as
  `Nat` tokens; preset ids are the integers the code assigns.
* A fallible send (`websocket.send_json`) is modelled by a delivery oracle
  `ok : Nat → Bool` saying which channels accept delivery during a pass.
-/

/-! ## Time -/

abbrev Timestamp := Nat

def usecPerSec : Nat := 1000000

def usecPerDay : Nat := 86400 * usecPerSec

/-- `datetime.now().replace(microsecond=0)`: zero out the sub-second part. -/
def truncToSecond (t : Nat) : Nat := t / usecPerSec * usecPerSec

/-! ## Association-list primitives for Python dicts -/

/-- `d[k] = v` on a Python dict: overwrite in place if the key exists,
otherwise append at the end (insertion order). -/
def setKey {β : Type} (k : Nat) (v : β) (d : List (Nat × β)) : List (Nat × β) :=
  if (d.lookup k).isSome then
    d.map (fun p => if p.1 = k then (k, v) else p)
  else
    d ++ [(k, v)]

/-- `del d[k]` on a Python dict. -/
def eraseKey {β : Type} (k : Nat) (d : List (Nat × β)) : List (Nat × β) :=
  d.filter (fun p => p.1 ≠ k)

/-! ## Data model -/

structure Conversation where
  title : String
  preset_id : Option Nat
  created_at : Timestamp
  updated_at : Timestamp
deriving DecidableEq, Repr

structure Message where
  id : Nat
  sender : String
  content : String
  created_at : Timestamp
deriving DecidableEq, Repr

/-- Preset parameter mapping (string keys to scalar values; scalars are
modelled opaquely as strings). -/
abbrev Params := List (String × String)

structure PresetRecord where
  name : String
  description : String
  system_prompt : String
  is_active : Bool
  parameters : Params
  created_at : Timestamp
  updated_at : Timestamp
deriving DecidableEq, Repr

/-- The two documents `conversations.json` and `messages.json`. -/
structure Storage where
  conversations : List (Nat × Conversation)
  messages : List (Nat × List Message)
deriving DecidableEq, Repr

/-- The `presets.json` document. -/
abbrev PresetsDoc := List (Nat × PresetRecord)

/-! ## JSONStorage: conversations and messages -/

namespace JSONStorage

/-- `JSONStorage.get_conversation`. -/
def get_conversation (conversation_id : Nat) (s : Storage) : Option Conversation :=
  s.conversations.lookup conversation_id

/-- `JSONStorage.delete_conversation`. -/
def delete_conversation (conversation_id : Nat) (s : Storage) : Storage × Bool :=
  if (s.conversations.lookup conversation_id).isSome then
    let conversations := eraseKey conversation_id s.conversations
    let messages :=
      if (s.messages.lookup conversation_id).isSome then
        eraseKey conversation_id s.messages
      else s.messages
    (⟨conversations, messages⟩, true)
  else
    (s, false)

/-- Stable insertion by `created_at` (Python's stable `list.sort`): an element
is inserted after all earlier elements with the same or smaller key. -/
def insertByCreated (m : Message) : List Message → List Message
  | [] => [m]
  | x :: xs =>
      if m.created_at < x.created_at then m :: x :: xs
      else x :: insertByCreated m xs

/-- Stable sort of a message list by `created_at`. -/
def sortByCreated : List Message → List Message
  | [] => []
  | x :: xs => insertByCreated x (sortByCreated xs)

/-- `JSONStorage.get_messages`.  `limit` is `Option Nat`; Python's
`if limit:` treats both `None` and `0` as "no limit", and `msg_list[-limit:]`
keeps the last `limit` elements. -/
def get_messages (conversation_id : Nat) (limit : Option Nat) (s : Storage) :
    List Message :=
  match s.messages.lookup conversation_id with
  | none => []
  | some msg_list =>
      let sorted := sortByCreated msg_list
      match limit with
      | some l =>
          if l ≠ 0 then sorted.drop (sorted.length - l) else sorted
      | none => sorted

/-- `JSONStorage.add_message`: refuse when the conversation is absent;
otherwise append a message with id `count-so-far + 1` and bump the
conversation's `updated_at` to the message's `created_at`. -/
def add_message (conversation_id : Nat) (sender content : String)
    (now : Timestamp) (s : Storage) : Storage × Bool :=
  if (s.conversations.lookup conversation_id).isSome then
    let msgs := (s.messages.lookup conversation_id).getD []
    let new_message : Message := ⟨msgs.length + 1, sender, content, now⟩
    let messages := setKey conversation_id (msgs ++ [new_message]) s.messages
    let conversations := s.conversations.map
      (fun p => if p.1 = conversation_id then (p.1, { p.2 with updated_at := now }) else p)
    (⟨conversations, messages⟩, true)
  else
    (s, false)

/-! ## JSONStorage: presets -/

/-- `JSONStorage.get_preset`. -/
def get_preset (preset_id : Nat) (d : PresetsDoc) : Option PresetRecord :=
  d.lookup preset_id

/-- `JSONStorage.get_presets`: all presets sorted by `created_at` ascending
(stable, like Python's `list.sort`). -/
def insertPresetByCreated (x : Nat × PresetRecord) :
    List (Nat × PresetRecord) → List (Nat × PresetRecord)
  | [] => [x]
  | y :: ys =>
      if x.2.created_at < y.2.created_at then x :: y :: ys
      else y :: insertPresetByCreated x ys

def sortPresetsByCreated : List (Nat × PresetRecord) → List (Nat × PresetRecord)
  | [] => []
  | x :: xs => insertPresetByCreated x (sortPresetsByCreated xs)

def get_presets (d : PresetsDoc) : List (Nat × PresetRecord) :=
  sortPresetsByCreated d

/-- `JSONStorage.create_preset`: new id is `max(existing_ids, default=0) + 1`;
`parameters or {}` turns an omitted mapping into the empty one.  The Python
defaults are `is_active=True`, `parameters=None`. -/
def create_preset (name description system_prompt : String)
    (is_active : Bool := true) (parameters : Option Params := none)
    (now : Timestamp := 0) (d : PresetsDoc := []) : PresetsDoc × Nat :=
  let existing_ids := d.map Prod.fst
  let new_id := existing_ids.foldl max 0 + 1
  let record : PresetRecord :=
    ⟨name, description, system_prompt, is_active, parameters.getD [], now, now⟩
  (setKey new_id record d, new_id)

/-! ## JSONStorage: statistics and cleanup -/

structure Statistics where
  total_conversations : Nat
  total_messages : Nat
  recent_conversations_7_days : Nat
  oldest_conversation_date : Option Timestamp
  max_age_days : Nat
deriving DecidableEq, Repr

/-- `JSONStorage.get_statistics`: the 7-day cutoff is
`datetime.now().replace(microsecond=0) - timedelta(days=7)`; the recent count
and the oldest date are both computed from each conversation's `created_at`,
and `max_age_days` is the literal `30`. -/
def get_statistics (now : Timestamp) (s : Storage) : Statistics :=
  let total_conversations := s.conversations.length
  let total_messages := s.messages.foldl (fun t p => t + p.2.length) 0
  let seven_days_ago := truncToSecond now - 7 * usecPerDay
  let scan := s.conversations.foldl
    (fun (acc : Nat × Option Timestamp) p =>
      let created_at := p.2.created_at
      let oldest := match acc.2 with
        | none => some created_at
        | some d => if created_at < d then some created_at else some d
      let recent := if seven_days_ago ≤ created_at then acc.1 + 1 else acc.1
      (recent, oldest))
    (0, none)
  ⟨total_conversations, total_messages, scan.1, scan.2, 30⟩

/-- `JSONStorage.cleanup_old_conversations`: cutoff is
`datetime.now().replace(microsecond=0) - timedelta(days=days)`; every
conversation with `updated_at < cutoff` is deleted together with its
messages, and the number of deleted conversations is returned. -/
def cleanup_old_conversations (now : Timestamp) (days : Nat) (s : Storage) :
    Storage × Nat :=
  let cutoff := truncToSecond now - days * usecPerDay
  let to_delete :=
    (s.conversations.filter (fun p => p.2.updated_at < cutoff)).map Prod.fst
  let conversations := to_delete.foldl (fun d k => eraseKey k d) s.conversations
  let messages := to_delete.foldl (fun d k => eraseKey k d) s.messages
  (⟨conversations, messages⟩, to_delete.length)

end JSONStorage

/-! ## Connection registry (`app/websocket/connection_manager.py`) -/

/-- `ConnectionManager.active_connections`: conversation id ↦ ordered list of
channel handles. -/
structure ConnectionManager where
  active_connections : List (Nat × List Nat)
deriving DecidableEq, Repr

namespace ConnectionManager

/-- `ConnectionManager.connect`: create the group if absent, then append the
channel at the end. -/
def connect (websocket : Nat) (conversation_id : Nat) (m : ConnectionManager) :
    ConnectionManager :=
  let conns := (m.active_connections.lookup conversation_id).getD []
  ⟨setKey conversation_id (conns ++ [websocket]) m.active_connections⟩

/-- `ConnectionManager.disconnect`: remove the channel from the group when
present; drop the group entry entirely when it becomes empty. -/
def disconnect (websocket : Nat) (conversation_id : Nat) (m : ConnectionManager) :
    ConnectionManager :=
  match m.active_connections.lookup conversation_id with
  | none => m
  | some conns =>
      let conns := if websocket ∈ conns then conns.erase websocket else conns
      if conns = [] then ⟨eraseKey conversation_id m.active_connections⟩
      else ⟨setKey conversation_id conns m.active_connections⟩

/-- `ConnectionManager.broadcast_to_conversation`: attempt delivery to every
channel of the group in order (`ok` says which sends succeed); channels whose
send raised are collected and disconnected in the same pass.  The returned
trace lists each attempted channel with its delivery outcome; exceptions are
swallowed, so the function always returns normally. -/
def broadcast_to_conversation (ok : Nat → Bool) (conversation_id : Nat)
    (m : ConnectionManager) : ConnectionManager × List (Nat × Bool) :=
  match m.active_connections.lookup conversation_id with
  | none => (m, [])
  | some conns =>
      let sent := conns.map (fun c => (c, ok c))
      let disconnected_connections := conns.filter (fun c => !(ok c))
      let m' := disconnected_connections.foldl
        (fun mm c => disconnect c conversation_id mm) m
      (m', sent)

/-- `ConnectionManager.get_active_connections_count`: per-conversation count,
or the total over all groups when no conversation id is given. -/
def get_active_connections_count (conversation_id : Option Nat)
    (m : ConnectionManager) : Nat :=
  match conversation_id with
  | some cid => ((m.active_connections.lookup cid).getD []).length
  | none => m.active_connections.foldl (fun t p => t + p.2.length) 0

/-! Operation alphabet for reachable-state reasoning about the registry. -/

inductive RegistryOp where
  | join (websocket conversation_id : Nat)
  | leave (websocket conversation_id : Nat)
  | broadcast (ok : Nat → Bool) (conversation_id : Nat)

def execOp (m : ConnectionManager) : RegistryOp → ConnectionManager
  | .join w cid => connect w cid m
  | .leave w cid => disconnect w cid m
  | .broadcast ok cid => (broadcast_to_conversation ok cid m).1

/-- State reached from the empty registry by a sequence of operations. -/
def run (ops : List RegistryOp) : ConnectionManager :=
  ops.foldl execOp ⟨[]⟩

/-- Decidable form of the registry invariant: every registered conversation id
maps to a non-empty group. -/
def groupsNonempty (m : ConnectionManager) : Bool :=
  m.active_connections.all (fun p => !p.2.isEmpty)

end ConnectionManager

/-! ## Preset API endpoint (`app/api/preset.py`) -/

/-- Request body of `POST /presets`; `description`, `parameters` optional,
`is_active` defaults to true (Pydantic model `PresetCreate`). -/
structure PresetCreate where
  name : String
  description : Option String := none
  system_prompt : String
  parameters : Option Params := none
  is_active : Bool := true
deriving DecidableEq, Repr

structure HTTPException where
  status_code : Nat
  detail : String
deriving DecidableEq, Repr

structure PresetResponse where
  id : Nat
  name : String
  description : Option String
  system_prompt : String
  parameters : Option Params
  is_active : Bool
  created_at : Timestamp
  updated_at : Timestamp
deriving DecidableEq, Repr

namespace PresetApi

/-- The `PresetResponse` the endpoint builds from a stored record. -/
def toResponse (id : Nat) (p : PresetRecord) : PresetResponse :=
  ⟨id, p.name, some p.description, p.system_prompt, some p.parameters,
    p.is_active, p.created_at, p.updated_at⟩

/-- `create_preset` endpoint: reject with a 400 when another preset already
has the requested name (the store is left untouched); otherwise persist via
`JSONStorage.create_preset` (with `description or ""` and `parameters or {}`)
and answer with the freshly stored record. -/
def create_preset_endpoint (now : Timestamp) (preset_data : PresetCreate)
    (d : PresetsDoc) : PresetsDoc × Except HTTPException PresetResponse :=
  let presets := JSONStorage.get_presets d
  if presets.any (fun p => p.2.name == preset_data.name) then
    (d, .error ⟨400, "preset name already exists"⟩)
  else
    let (d', new_id) := JSONStorage.create_preset preset_data.name
      (preset_data.description.getD "") preset_data.system_prompt
      preset_data.is_active (some (preset_data.parameters.getD [])) now d
    match JSONStorage.get_preset new_id d' with
    | some p => (d', .ok (toResponse new_id p))
    | none => (d', .error ⟨500, "create preset failed"⟩)

end PresetApi

/-! ## Registry invariant and auxiliary definitions -/

namespace ConnectionManager

/-- The group stored for a conversation ([] when the entry is absent). -/
def entry (conversation_id : Nat) (m : ConnectionManager) : List Nat :=
  (m.active_connections.lookup conversation_id).getD []

/-- Propositional form of the registry invariant. -/
def Inv (m : ConnectionManager) : Prop :=
  ∀ p ∈ m.active_connections, p.2 ≠ []

end ConnectionManager

/-- Configuration (`app/config.py`, class `Settings`): the retention threshold
`max_conversation_age_days` (default 30, overridable through the environment)
and the cleanup interval. -/
structure Settings where
  max_conversation_age_days : Nat := 30
  cleanup_interval_hours : Nat := 24
deriving DecidableEq, Repr

/-- Modelled from the spec (for comparison with `get_statistics`): the number
of conversations whose `updated_at` lies within the last 7 days. -/
def conversationsUpdatedInLast7Days (now : Timestamp) (s : Storage) : Nat :=
  (s.conversations.filter (fun p => now - 7 * usecPerDay ≤ p.2.updated_at)).length

/-- The running minimum used by `get_statistics` for the oldest date. -/
def minScan (o : Option Nat) (ts : List Nat) : Option Nat :=
  ts.foldl
    (fun acc c =>
      match acc with
      | none => some c
      | some d => if c < d then some c else some d) o

/-! ## Theorems -/

theorem lookup_cons_self {β : Type} (k : Nat) (b : β) (t : List (Nat × β)) :
    ((k, b) :: t).lookup k = some b := by
  simp [List.lookup_cons]

theorem lookup_cons_ne {β : Type} {k a : Nat} (h : k ≠ a) (b : β) (t : List (Nat × β)) :
    ((a, b) :: t).lookup k = t.lookup k := by
  have hb : (k == a) = false := beq_eq_false_iff_ne.mpr h
  simp [List.lookup_cons, hb]

theorem eraseKey_cons_self {β : Type} (k : Nat) (b : β) (t : List (Nat × β)) :
    eraseKey k ((k, b) :: t) = eraseKey k t := by
  simp [eraseKey]

theorem eraseKey_cons_ne {β : Type} {k a : Nat} (h : a ≠ k) (b : β) (t : List (Nat × β)) :
    eraseKey k ((a, b) :: t) = (a, b) :: eraseKey k t := by
  simp [eraseKey, h]

theorem lookup_eraseKey_self {β : Type} (k : Nat) (d : List (Nat × β)) :
    (eraseKey k d).lookup k = none := by
  induction d with
  | nil => rfl
  | cons p t ih =>
      rcases p with ⟨a, b⟩
      by_cases h : a = k
      · rw [h, eraseKey_cons_self]
        exact ih
      · rw [eraseKey_cons_ne h, lookup_cons_ne (Ne.symm h)]
        exact ih

theorem lookup_append_of_eq_none {β : Type} {d : List (Nat × β)} {k : Nat}
    (h : d.lookup k = none) (d₂ : List (Nat × β)) :
    (d ++ d₂).lookup k = d₂.lookup k := by
  induction d with
  | nil => rfl
  | cons p t ih =>
      rcases p with ⟨a, b⟩
      by_cases hk : k = a
      · rw [hk, lookup_cons_self] at h
        exact absurd h (by simp)
      · rw [List.cons_append, lookup_cons_ne hk]
        rw [lookup_cons_ne hk] at h
        exact ih h

theorem lookup_mapConst {β : Type} (k : Nat) (v : β) (d : List (Nat × β)) :
    (d.map (fun p => if p.1 = k then (k, v) else p)).lookup k
      = (d.lookup k).map (fun _ => v) := by
  induction d with
  | nil => rfl
  | cons p t ih =>
      rcases p with ⟨a, b⟩
      by_cases h : a = k
      · subst h
        have hg : (if ((a, b) : Nat × β).1 = a then (a, v) else (a, b)) = (a, v) := by simp
        rw [List.map_cons, hg, lookup_cons_self, lookup_cons_self]
        rfl
      · have hg : (if ((a, b) : Nat × β).1 = k then (k, v) else (a, b)) = (a, b) := by
          simp [h]
        rw [List.map_cons, hg, lookup_cons_ne (Ne.symm h), lookup_cons_ne (Ne.symm h)]
        exact ih

theorem lookup_setKey_self {β : Type} (k : Nat) (v : β) (d : List (Nat × β)) :
    (setKey k v d).lookup k = some v := by
  unfold setKey
  by_cases h : (d.lookup k).isSome
  · rw [if_pos h, lookup_mapConst]
    obtain ⟨w, hw⟩ := Option.isSome_iff_exists.mp h
    rw [hw]
    rfl
  · rw [if_neg h]
    have hn : d.lookup k = none := Option.not_isSome_iff_eq_none.mp h
    rw [lookup_append_of_eq_none hn, lookup_cons_self]

theorem lookup_setKey_of_eq_none {β : Type} {d : List (Nat × β)} {k : Nat}
    (h : d.lookup k = none) (v : β) : setKey k v d = d ++ [(k, v)] := by
  unfold setKey
  rw [h]
  rfl

theorem mem_setKey {β : Type} {p : Nat × β} {k : Nat} {v : β} {d : List (Nat × β)}
    (h : p ∈ setKey k v d) : p ∈ d ∨ p = (k, v) := by
  unfold setKey at h
  by_cases hs : (d.lookup k).isSome
  · rw [if_pos hs] at h
    obtain ⟨q, hq, hfq⟩ := List.mem_map.mp h
    by_cases hqk : q.1 = k
    · right
      rw [if_pos hqk] at hfq
      exact hfq.symm
    · left
      rw [if_neg hqk] at hfq
      exact hfq ▸ hq
  · rw [if_neg hs] at h
    rcases List.mem_append.mp h with h' | h'
    · exact Or.inl h'
    · exact Or.inr (List.mem_singleton.mp h')

theorem mem_of_mem_eraseKey {β : Type} {p : Nat × β} {k : Nat} {d : List (Nat × β)}
    (h : p ∈ eraseKey k d) : p ∈ d :=
  List.mem_of_mem_filter h

theorem foldl_eraseKey {β : Type} (ks : List Nat) (d : List (Nat × β)) :
    ks.foldl (fun dd k => eraseKey k dd) d = d.filter (fun p => p.1 ∉ ks) := by
  induction ks generalizing d with
  | nil => simp
  | cons k t ih =>
      rw [List.foldl_cons, ih, eraseKey, List.filter_filter]
      apply List.filter_congr
      intro p _
      by_cases h1 : p.1 = k <;> by_cases h2 : p.1 ∈ t <;> simp [h1, h2]

theorem lookup_eq_none_iff {β : Type} {k : Nat} {d : List (Nat × β)} :
    d.lookup k = none ↔ k ∉ d.map Prod.fst := by
  induction d with
  | nil => simp
  | cons p t ih =>
      rcases p with ⟨a, b⟩
      by_cases h : k = a
      · subst h
        rw [lookup_cons_self]
        simp
      · rw [lookup_cons_ne h]
        simp [ih, h]

namespace JSONStorage

/-- Looking up the touched key after `add_message`'s timestamp bump. -/
theorem lookup_map_setUpdated (k : Nat) (now : Timestamp)
    (d : List (Nat × Conversation)) :
    (d.map (fun p => if p.1 = k then (p.1, { p.2 with updated_at := now }) else p)).lookup k
      = (d.lookup k).map (fun c => { c with updated_at := now }) := by
  induction d with
  | nil => rfl
  | cons p t ih =>
      rcases p with ⟨a, b⟩
      by_cases h : a = k
      · subst h
        have hg : (if ((a, b) : Nat × Conversation).1 = a
              then (((a, b) : Nat × Conversation).1, { ((a, b) : Nat × Conversation).2 with updated_at := now })
              else (a, b)) = (a, { b with updated_at := now }) := by simp
        rw [List.map_cons, hg, lookup_cons_self, lookup_cons_self]
        rfl
      · have hg : (if ((a, b) : Nat × Conversation).1 = k
              then (((a, b) : Nat × Conversation).1, { ((a, b) : Nat × Conversation).2 with updated_at := now })
              else (a, b)) = (a, b) := by simp [h]
        rw [List.map_cons, hg, lookup_cons_ne (Ne.symm h), lookup_cons_ne (Ne.symm h)]
        exact ih

end JSONStorage

theorem le_foldl_max (l : List Nat) (n : Nat) : n ≤ l.foldl max n := by
  induction l generalizing n with
  | nil => exact le_refl n
  | cons a t ih => exact le_trans (le_max_left n a) (ih (max n a))

theorem le_foldl_max_of_mem {x : Nat} {l : List Nat} (h : x ∈ l) (n : Nat) :
    x ≤ l.foldl max n := by
  induction l generalizing n with
  | nil => cases h
  | cons a t ih =>
      rcases List.mem_cons.mp h with rfl | h'
      · exact le_trans (le_max_right n x) (le_foldl_max t _)
      · exact ih h' _

theorem foldl_max_mem_or_eq (l : List Nat) (n : Nat) :
    l.foldl max n ∈ l ∨ l.foldl max n = n := by
  induction l generalizing n with
  | nil => exact Or.inr rfl
  | cons a t ih =>
      rw [List.foldl_cons]
      rcases ih (max n a) with h | h
      · exact Or.inl (List.mem_cons_of_mem a h)
      · rcases max_choice n a with hm | hm
        · exact Or.inr (h.trans hm)
        · refine Or.inl ?_
          rw [h, hm]
          exact List.mem_cons_self a t

namespace JSONStorage

theorem mem_insertPresetByCreated {y x : Nat × PresetRecord}
    {l : List (Nat × PresetRecord)} :
    y ∈ insertPresetByCreated x l ↔ y = x ∨ y ∈ l := by
  induction l with
  | nil => simp [insertPresetByCreated]
  | cons z t ih =>
      unfold insertPresetByCreated
      by_cases h : x.2.created_at < z.2.created_at
      · rw [if_pos h]
        simp
      · rw [if_neg h]
        simp only [List.mem_cons, ih]
        tauto

theorem mem_sortPresetsByCreated {y : Nat × PresetRecord}
    {d : List (Nat × PresetRecord)} :
    y ∈ sortPresetsByCreated d ↔ y ∈ d := by
  induction d with
  | nil => exact Iff.rfl
  | cons x t ih =>
      unfold sortPresetsByCreated
      rw [mem_insertPresetByCreated]
      simp [ih]

end JSONStorage

/-- C10: when the conversation id is absent from the conversations document,
`add_message` returns `false` and leaves the whole storage state (both the
messages document and the conversations document) unchanged. -/
theorem add_message_absent_conversation_is_noop
    (conversation_id : Nat) (sender content : String) (now : Timestamp) (s : Storage)
    (h : s.conversations.lookup conversation_id = none) :
    JSONStorage.add_message conversation_id sender content now s = (s, false) := by
  unfold JSONStorage.add_message
  rw [h]
  rfl

/-- Witness for C10: adding to the absent conversation 7 changes nothing. -/
theorem add_message_absent_conversation_is_noop_witness :
    (Storage.mk [(1, ⟨"t", none, 0, 0⟩)] [(1, [])]).conversations.lookup 7 = none ∧
    JSONStorage.add_message 7 "user" "hi" 5 ⟨[(1, ⟨"t", none, 0, 0⟩)], [(1, [])]⟩
      = (⟨[(1, ⟨"t", none, 0, 0⟩)], [(1, [])]⟩, false) :=
  ⟨rfl, add_message_absent_conversation_is_noop 7 "user" "hi" 5
    ⟨[(1, ⟨"t", none, 0, 0⟩)], [(1, [])]⟩ rfl⟩

/-- C7: deleting an existing conversation succeeds, removes the conversation
record, removes all of its messages, and a subsequent `get_messages` on that
id returns the empty list (for any limit) rather than an error. -/
theorem delete_conversation_cascades
    (conversation_id : Nat) (s : Storage)
    (h : (s.conversations.lookup conversation_id).isSome) :
    (JSONStorage.delete_conversation conversation_id s).2 = true ∧
    JSONStorage.get_conversation conversation_id
      (JSONStorage.delete_conversation conversation_id s).1 = none ∧
    (JSONStorage.delete_conversation conversation_id s).1.messages.lookup
      conversation_id = none ∧
    ∀ limit, JSONStorage.get_messages conversation_id limit
      (JSONStorage.delete_conversation conversation_id s).1 = [] := by
  have hmsg : (if (s.messages.lookup conversation_id).isSome then
        eraseKey conversation_id s.messages else s.messages).lookup conversation_id
      = none := by
    by_cases hm : (s.messages.lookup conversation_id).isSome
    · rw [if_pos hm]
      exact lookup_eraseKey_self conversation_id s.messages
    · rw [if_neg hm]
      exact Option.not_isSome_iff_eq_none.mp hm
  unfold JSONStorage.delete_conversation
  rw [if_pos h]
  refine ⟨rfl, ?_, ?_, ?_⟩
  · exact lookup_eraseKey_self conversation_id s.conversations
  · exact hmsg
  · intro limit
    unfold JSONStorage.get_messages
    rw [hmsg]

/-- Witness for C7: deleting conversation 3 erases it and its two messages. -/
theorem delete_conversation_cascades_witness :
    ((Storage.mk [(3, ⟨"t", none, 0, 9⟩)]
        [(3, [⟨1, "user", "a", 1⟩, ⟨2, "ai", "b", 2⟩])]).conversations.lookup 3).isSome
      = true ∧
    (JSONStorage.delete_conversation 3
        ⟨[(3, ⟨"t", none, 0, 9⟩)], [(3, [⟨1, "user", "a", 1⟩, ⟨2, "ai", "b", 2⟩])]⟩).2
      = true ∧
    JSONStorage.get_messages 3 none
      (JSONStorage.delete_conversation 3
        ⟨[(3, ⟨"t", none, 0, 9⟩)], [(3, [⟨1, "user", "a", 1⟩, ⟨2, "ai", "b", 2⟩])]⟩).1
      = [] := by
  refine ⟨by decide, ?_, ?_⟩
  · exact (delete_conversation_cascades 3 _ (by decide)).1
  · exact (delete_conversation_cascades 3 _ (by decide)).2.2.2 none

/-- C5: appending a message to an existing conversation C succeeds, stores the
message with id `(number of messages already stored for C) + 1` appended to
C's list, sets C's `updated_at` to the new message's `created_at`, and —
whenever the stored ids are the sequence `1..n`, as repeated appends from an
empty list always produce — the appended list's ids are `1..n+1`, so no two
messages of C ever share an id. -/
theorem add_message_assigns_sequential_id
    (conversation_id : Nat) (sender content : String) (now : Timestamp) (s : Storage)
    (c : Conversation) (h : s.conversations.lookup conversation_id = some c) :
    (JSONStorage.add_message conversation_id sender content now s).2 = true ∧
    (JSONStorage.add_message conversation_id sender content now s).1.messages.lookup
        conversation_id
      = some ((s.messages.lookup conversation_id).getD [] ++
          [(⟨((s.messages.lookup conversation_id).getD []).length + 1, sender, content, now⟩ : Message)]) ∧
    (JSONStorage.add_message conversation_id sender content now s).1.conversations.lookup
        conversation_id
      = some { c with updated_at := now } ∧
    (((s.messages.lookup conversation_id).getD []).map Message.id
        = List.range' 1 ((s.messages.lookup conversation_id).getD []).length →
      (((s.messages.lookup conversation_id).getD [] ++
          [(⟨((s.messages.lookup conversation_id).getD []).length + 1, sender, content, now⟩ : Message)]).map
            Message.id
          = List.range' 1 (((s.messages.lookup conversation_id).getD []).length + 1) ∧
        (((s.messages.lookup conversation_id).getD [] ++
          [(⟨((s.messages.lookup conversation_id).getD []).length + 1, sender, content, now⟩ : Message)]).map
            Message.id).Nodup)) := by
  have hs : (s.conversations.lookup conversation_id).isSome := by
    rw [h]
    rfl
  unfold JSONStorage.add_message
  rw [if_pos hs]
  refine ⟨rfl, ?_, ?_, ?_⟩
  · exact lookup_setKey_self conversation_id _ s.messages
  · have h3 := JSONStorage.lookup_map_setUpdated conversation_id now s.conversations
    rw [h] at h3
    exact h3
  · intro hinv
    have hids : ((s.messages.lookup conversation_id).getD [] ++
          [(⟨((s.messages.lookup conversation_id).getD []).length + 1, sender, content, now⟩ : Message)]).map
            Message.id
        = List.range' 1 (((s.messages.lookup conversation_id).getD []).length + 1) := by
      rw [List.map_append, hinv]
      have hm : List.map Message.id
            [(⟨((s.messages.lookup conversation_id).getD []).length + 1, sender, content, now⟩ : Message)]
          = [((s.messages.lookup conversation_id).getD []).length + 1] := rfl
      rw [hm]
      have hr := @List.range'_concat 1 1
        ((s.messages.lookup conversation_id).getD []).length
      have h1 : 1 + 1 * ((s.messages.lookup conversation_id).getD []).length
          = ((s.messages.lookup conversation_id).getD []).length + 1 := by omega
      rw [h1] at hr
      rw [← hr]
    exact ⟨hids, hids ▸ List.nodup_range' 1 _⟩

/-- Witness for C5: appending "b" to conversation 1 (one stored message)
yields message id 2, ids `[1, 2]`, and `updated_at = 5`. -/
theorem add_message_assigns_sequential_id_witness :
    ((⟨[(1, ⟨"t", none, 0, 1⟩)], [(1, [⟨1, "user", "a", 1⟩])]⟩ : Storage).conversations.lookup 1
      = some ⟨"t", none, 0, 1⟩) ∧
    (JSONStorage.add_message 1 "ai" "b" 5
        ⟨[(1, ⟨"t", none, 0, 1⟩)], [(1, [⟨1, "user", "a", 1⟩])]⟩).1.messages.lookup 1
      = some [⟨1, "user", "a", 1⟩, ⟨2, "ai", "b", 5⟩] ∧
    (JSONStorage.add_message 1 "ai" "b" 5
        ⟨[(1, ⟨"t", none, 0, 1⟩)], [(1, [⟨1, "user", "a", 1⟩])]⟩).1.conversations.lookup 1
      = some ⟨"t", none, 0, 5⟩ ∧
    ([⟨1, "user", "a", 1⟩, ⟨2, "ai", "b", 5⟩] : List Message).map Message.id = [1, 2] := by
  have hmain := add_message_assigns_sequential_id 1 "ai" "b" 5
    ⟨[(1, ⟨"t", none, 0, 1⟩)], [(1, [⟨1, "user", "a", 1⟩])]⟩ ⟨"t", none, 0, 1⟩ (by decide)
  exact ⟨by decide, hmain.2.1, hmain.2.2.1, by decide⟩

/-- C4: `create_preset` assigns the new preset the id `1 + max existing id`
(1 when the store is empty): the returned id exceeds every stored id, is one
more than some stored id when any exist, and the stored key set becomes the
old keys plus the new id, still without duplicates. -/
theorem create_preset_assigns_max_plus_one
    (name description system_prompt : String) (is_active : Bool)
    (parameters : Option Params) (now : Timestamp) (d : PresetsDoc)
    (h : (d.map Prod.fst).Nodup) :
    (d = [] →
      (JSONStorage.create_preset name description system_prompt is_active parameters now d).2
        = 1) ∧
    (∀ k ∈ d.map Prod.fst,
      k < (JSONStorage.create_preset name description system_prompt is_active parameters now d).2) ∧
    (d ≠ [] →
      (JSONStorage.create_preset name description system_prompt is_active parameters now d).2 - 1
        ∈ d.map Prod.fst) ∧
    ((JSONStorage.create_preset name description system_prompt is_active parameters now d).1.map
        Prod.fst
      = d.map Prod.fst ++
        [(JSONStorage.create_preset name description system_prompt is_active parameters now d).2]) ∧
    (((JSONStorage.create_preset name description system_prompt is_active parameters now d).1.map
        Prod.fst).Nodup) := by
  have hid : (JSONStorage.create_preset name description system_prompt is_active parameters now d).2
      = (d.map Prod.fst).foldl max 0 + 1 := rfl
  have hlt : ∀ k ∈ d.map Prod.fst,
      k < (d.map Prod.fst).foldl max 0 + 1 := by
    intro k hk
    exact Nat.lt_succ_of_le (le_foldl_max_of_mem hk 0)
  have hnotmem : ((d.map Prod.fst).foldl max 0 + 1) ∉ d.map Prod.fst := by
    intro hmem
    exact absurd (hlt _ hmem) (lt_irrefl _)
  have hnone : d.lookup ((d.map Prod.fst).foldl max 0 + 1) = none :=
    lookup_eq_none_iff.mpr hnotmem
  have hdoc : (JSONStorage.create_preset name description system_prompt is_active parameters now d).1
      = d ++ [((d.map Prod.fst).foldl max 0 + 1,
          ⟨name, description, system_prompt, is_active, parameters.getD [], now, now⟩)] := by
    unfold JSONStorage.create_preset
    exact lookup_setKey_of_eq_none hnone _
  refine ⟨?_, ?_, ?_, ?_, ?_⟩
  · intro hd
    subst hd
    rfl
  · intro k hk
    rw [hid]
    exact hlt k hk
  · intro hd
    rw [hid, Nat.add_sub_cancel]
    rcases foldl_max_mem_or_eq (d.map Prod.fst) 0 with hm | hm
    · exact hm
    · rcases d with _ | ⟨p, t⟩
      · exact absurd rfl hd
      · have hp : p.1 ∈ (p :: t).map Prod.fst := List.mem_map_of_mem Prod.fst
          (List.mem_cons_self p t)
        have hp0 : p.1 ≤ 0 := hm ▸ le_foldl_max_of_mem hp 0
        have : p.1 = 0 := Nat.le_zero.mp hp0
        rw [hm, ← this]
        exact hp
  · rw [hdoc, List.map_append, hid]
    rfl
  · rw [hdoc, List.map_append]
    rw [List.nodup_append]
    refine ⟨h, List.nodup_singleton _, ?_⟩
    intro k hk hk1
    have : k = (d.map Prod.fst).foldl max 0 + 1 := by
      simpa using hk1
    exact hnotmem (this ▸ hk)

/-- Witness for C4: with presets 2 and 5 stored, the new id is 6, above all
existing ids, and the keys stay duplicate-free. -/
theorem create_preset_assigns_max_plus_one_witness :
    (([(2, ⟨"a", "", "s", true, [], 0, 0⟩), (5, ⟨"b", "", "s", true, [], 1, 1⟩)] :
        PresetsDoc).map Prod.fst).Nodup ∧
    (JSONStorage.create_preset "c" "" "s" true none 9
        [(2, ⟨"a", "", "s", true, [], 0, 0⟩), (5, ⟨"b", "", "s", true, [], 1, 1⟩)]).2 = 6 ∧
    ((JSONStorage.create_preset "c" "" "s" true none 9
        [(2, ⟨"a", "", "s", true, [], 0, 0⟩), (5, ⟨"b", "", "s", true, [], 1, 1⟩)]).1.map
      Prod.fst) = [2, 5, 6] := by
  have hmain := create_preset_assigns_max_plus_one "c" "" "s" true none 9
    [(2, ⟨"a", "", "s", true, [], 0, 0⟩), (5, ⟨"b", "", "s", true, [], 1, 1⟩)] (by decide)
  refine ⟨by decide, by decide, ?_⟩
  rw [hmain.2.2.2.1]
  decide

/-- C6: a `get_preset` on the id returned by `create_preset` yields a record
whose `name`, `description`, `system_prompt`, `parameters` and `is_active`
fields equal the input, with an omitted parameter mapping stored as the empty
mapping (`parameters.getD []`; the Lean definition carries the Python
defaults `is_active := true`, `parameters := none`). -/
theorem create_preset_get_preset_roundtrip
    (name description system_prompt : String) (is_active : Bool)
    (parameters : Option Params) (now : Timestamp) (d : PresetsDoc) :
    JSONStorage.get_preset
        (JSONStorage.create_preset name description system_prompt is_active parameters now d).2
        (JSONStorage.create_preset name description system_prompt is_active parameters now d).1
      = some ⟨name, description, system_prompt, is_active, parameters.getD [], now, now⟩ := by
  unfold JSONStorage.get_preset JSONStorage.create_preset
  exact lookup_setKey_self _ _ d

/-- C3: when some stored preset already has the requested name, the
create-preset endpoint answers with a 400 Conflict error and the presets
document is returned unchanged — the second preset is never persisted. -/
theorem create_preset_endpoint_conflict
    (now : Timestamp) (preset_data : PresetCreate) (d : PresetsDoc)
    (h : ∃ p ∈ d, p.2.name = preset_data.name) :
    (PresetApi.create_preset_endpoint now preset_data d).1 = d ∧
    ∃ e, (PresetApi.create_preset_endpoint now preset_data d).2 = Except.error e ∧
      e.status_code = 400 := by
  obtain ⟨p, hp, hname⟩ := h
  have hany : (JSONStorage.get_presets d).any (fun q => q.2.name == preset_data.name)
      = true := by
    apply List.any_eq_true.mpr
    refine ⟨p, ?_, ?_⟩
    · exact JSONStorage.mem_sortPresetsByCreated.mpr hp
    · simp [hname]
  unfold PresetApi.create_preset_endpoint
  rw [if_pos hany]
  exact ⟨rfl, ⟨400, "preset name already exists"⟩, rfl, rfl⟩

/-- Witness for C3: creating a second preset named "n" against a store that
already holds preset "n" is rejected with status 400 and leaves the store as
it was. -/
theorem create_preset_endpoint_conflict_witness :
    (∃ p ∈ ([(1, ⟨"n", "", "sp", true, [], 0, 0⟩)] : PresetsDoc),
      p.2.name = (PresetCreate.mk "n" none "sp2" none true).name) ∧
    (PresetApi.create_preset_endpoint 9 ⟨"n", none, "sp2", none, true⟩
        [(1, ⟨"n", "", "sp", true, [], 0, 0⟩)]).1
      = [(1, ⟨"n", "", "sp", true, [], 0, 0⟩)] ∧
    ∃ e, (PresetApi.create_preset_endpoint 9 ⟨"n", none, "sp2", none, true⟩
        [(1, ⟨"n", "", "sp", true, [], 0, 0⟩)]).2 = Except.error e ∧
      e.status_code = 400 := by
  have hmain := create_preset_endpoint_conflict 9 ⟨"n", none, "sp2", none, true⟩
    [(1, ⟨"n", "", "sp", true, [], 0, 0⟩)]
    ⟨(1, ⟨"n", "", "sp", true, [], 0, 0⟩), by decide, rfl⟩
  exact ⟨⟨(1, ⟨"n", "", "sp", true, [], 0, 0⟩), by decide, rfl⟩, hmain.1, hmain.2⟩

/-- C1 counterexample: the code's cutoff is computed from `datetime.now()`
with `microsecond=0`, i.e. `truncToSecond now`, not from `now` itself.  At
`now = 1000001` (one second plus one microsecond) with `days = 0`, the
conversation updated at `1000000` — strictly in the past, and strictly less
than `now - days` — survives `cleanup_old_conversations`, and the returned
count is 0, contradicting the claim. -/
theorem cleanup_claim_counterexample :
    (⟨[(1, ⟨"t", none, 500000, 1000000⟩)], []⟩ : Storage).conversations.lookup 1
      = some ⟨"t", none, 500000, 1000000⟩ ∧
    (1000000 : Nat) < 1000001 - 0 * usecPerDay ∧
    ((JSONStorage.cleanup_old_conversations 1000001 0
        ⟨[(1, ⟨"t", none, 500000, 1000000⟩)], []⟩).1.conversations.lookup 1).isSome
      = true ∧
    (JSONStorage.cleanup_old_conversations 1000001 0
        ⟨[(1, ⟨"t", none, 500000, 1000000⟩)], []⟩).2 = 0 := by
  decide

/-- C1 (amended): `cleanup(days)` deletes exactly those conversations whose
`updated_at` is strictly less than `truncToSecond now - days` (the cutoff
taken from the second-truncated clock), removes exactly the message lists
owned by the deleted conversations, leaves every other conversation and
message entry unchanged, and returns the number of deleted conversations. -/
theorem cleanup_deletes_exactly_pre_cutoff
    (now : Timestamp) (days : Nat) (s : Storage)
    (h : (s.conversations.map Prod.fst).Nodup) :
    (JSONStorage.cleanup_old_conversations now days s).1.conversations
      = s.conversations.filter
          (fun p => ¬ p.2.updated_at < truncToSecond now - days * usecPerDay) ∧
    (JSONStorage.cleanup_old_conversations now days s).1.messages
      = s.messages.filter
          (fun p => p.1 ∉ (s.conversations.filter
              (fun q => q.2.updated_at < truncToSecond now - days * usecPerDay)).map Prod.fst) ∧
    (JSONStorage.cleanup_old_conversations now days s).2
      = (s.conversations.filter
          (fun p => p.2.updated_at < truncToSecond now - days * usecPerDay)).length := by
  refine ⟨?_, ?_, ?_⟩
  · have h1 : (JSONStorage.cleanup_old_conversations now days s).1.conversations
        = s.conversations.filter
            (fun p => p.1 ∉ (s.conversations.filter
              (fun q => q.2.updated_at < truncToSecond now - days * usecPerDay)).map Prod.fst) :=
      foldl_eraseKey _ s.conversations
    rw [h1]
    apply List.filter_congr
    intro p hp
    apply decide_eq_decide.mpr
    constructor
    · intro hnot hlt
      apply hnot
      exact List.mem_map_of_mem Prod.fst (List.mem_filter_of_mem hp (by simpa using hlt))
    · intro hnot hmem
      obtain ⟨q, hq, hfst⟩ := List.mem_map.mp hmem
      have hq' := List.mem_filter.mp hq
      have hpq : q = p := List.inj_on_of_nodup_map h hq'.1 hp hfst
      apply hnot
      subst hpq
      simpa using hq'.2
  · exact foldl_eraseKey _ s.messages
  · exact (List.length_map _ Prod.fst).symm ▸ rfl

/-- Witness for C1 (amended): with `days = 3` and `now` ten days in, the
conversation last updated five days in is deleted together with its
messages, the one updated nine days in survives, and the count is 1. -/
theorem cleanup_deletes_exactly_pre_cutoff_witness :
    ((⟨[(1, ⟨"a", none, 0, 5 * usecPerDay⟩), (2, ⟨"b", none, 0, 9 * usecPerDay⟩)],
        [(1, [⟨1, "user", "x", 1⟩]), (2, [⟨1, "user", "y", 2⟩])]⟩ : Storage).conversations.map
      Prod.fst).Nodup ∧
    (JSONStorage.cleanup_old_conversations (10 * usecPerDay + 123) 3
        ⟨[(1, ⟨"a", none, 0, 5 * usecPerDay⟩), (2, ⟨"b", none, 0, 9 * usecPerDay⟩)],
          [(1, [⟨1, "user", "x", 1⟩]), (2, [⟨1, "user", "y", 2⟩])]⟩).1.conversations
      = [(2, ⟨"b", none, 0, 9 * usecPerDay⟩)] ∧
    (JSONStorage.cleanup_old_conversations (10 * usecPerDay + 123) 3
        ⟨[(1, ⟨"a", none, 0, 5 * usecPerDay⟩), (2, ⟨"b", none, 0, 9 * usecPerDay⟩)],
          [(1, [⟨1, "user", "x", 1⟩]), (2, [⟨1, "user", "y", 2⟩])]⟩).1.messages
      = [(2, [⟨1, "user", "y", 2⟩])] ∧
    (JSONStorage.cleanup_old_conversations (10 * usecPerDay + 123) 3
        ⟨[(1, ⟨"a", none, 0, 5 * usecPerDay⟩), (2, ⟨"b", none, 0, 9 * usecPerDay⟩)],
          [(1, [⟨1, "user", "x", 1⟩]), (2, [⟨1, "user", "y", 2⟩])]⟩).2 = 1 := by
  have hmain := cleanup_deletes_exactly_pre_cutoff (10 * usecPerDay + 123) 3
    ⟨[(1, ⟨"a", none, 0, 5 * usecPerDay⟩), (2, ⟨"b", none, 0, 9 * usecPerDay⟩)],
      [(1, [⟨1, "user", "x", 1⟩]), (2, [⟨1, "user", "y", 2⟩])]⟩ (by decide)
  exact ⟨by decide, hmain.1.trans (by decide), hmain.2.1.trans (by decide),
    hmain.2.2.trans (by decide)⟩

namespace ConnectionManager

theorem entry_disconnect (w cid : Nat) (m : ConnectionManager) :
    entry cid (disconnect w cid m) = (entry cid m).erase w := by
  cases hl : m.active_connections.lookup cid with
  | none =>
      simp only [disconnect, hl]
      simp [entry, hl]
  | some conns =>
      have hc : (if w ∈ conns then conns.erase w else conns) = conns.erase w := by
        by_cases hw : w ∈ conns
        · rw [if_pos hw]
        · rw [if_neg hw, List.erase_of_not_mem hw]
      simp only [disconnect, hl, hc]
      have hr : entry cid m = conns := by simp [entry, hl]
      by_cases he : conns.erase w = []
      · rw [if_pos he]
        show ((eraseKey cid m.active_connections).lookup cid).getD []
          = (entry cid m).erase w
        rw [lookup_eraseKey_self, hr, he]
        rfl
      · rw [if_neg he]
        show ((setKey cid (conns.erase w) m.active_connections).lookup cid).getD []
          = (entry cid m).erase w
        rw [lookup_setKey_self, hr]
        rfl

theorem entry_foldl_disconnect (cid : Nat) (fails : List Nat) (m : ConnectionManager) :
    entry cid (fails.foldl (fun mm c => disconnect c cid mm) m)
      = (entry cid m).diff fails := by
  induction fails generalizing m with
  | nil => simp
  | cons c t ih =>
      rw [List.foldl_cons, ih, entry_disconnect, List.diff_cons]

end ConnectionManager

/-- C2: `broadcast_to_conversation` attempts delivery to every channel of the
conversation's group in registration order (the trace lists exactly the group,
in order), every channel whose delivery fails is removed from the group within
the same pass — so the subsequent per-conversation `active_count` counts only
the channels that delivered — and no failed channel remains in the group.
Delivery failures are swallowed inside the pass (the function is total), never
raised to the caller. -/
theorem broadcast_prunes_failed_channels
    (ok : Nat → Bool) (conversation_id : Nat) (m : ConnectionManager)
    (conns : List Nat)
    (hc : m.active_connections.lookup conversation_id = some conns)
    (hnd : conns.Nodup) :
    (ConnectionManager.broadcast_to_conversation ok conversation_id m).2
      = conns.map (fun c => (c, ok c)) ∧
    ConnectionManager.get_active_connections_count (some conversation_id)
        (ConnectionManager.broadcast_to_conversation ok conversation_id m).1
      = (conns.filter ok).length ∧
    ∀ c ∈ conns, ok c = false →
      c ∉ ((ConnectionManager.broadcast_to_conversation ok conversation_id
          m).1.active_connections.lookup conversation_id).getD [] := by
  have h1 : (ConnectionManager.broadcast_to_conversation ok conversation_id m).1
      = (conns.filter (fun c => !(ok c))).foldl
          (fun mm c => ConnectionManager.disconnect c conversation_id mm) m := by
    simp only [ConnectionManager.broadcast_to_conversation, hc]
  have hentry : ConnectionManager.entry conversation_id
      (ConnectionManager.broadcast_to_conversation ok conversation_id m).1
      = conns.filter ok := by
    rw [h1, ConnectionManager.entry_foldl_disconnect]
    have h2 : ConnectionManager.entry conversation_id m = conns := by
      simp [ConnectionManager.entry, hc]
    rw [h2, List.Nodup.diff_eq_filter hnd]
    apply List.filter_congr
    intro x hx
    by_cases hok : ok x = true
    · simp [List.mem_filter, hok]
    · simp [List.mem_filter, hx, hok, Bool.eq_false_iff.mpr hok]
  refine ⟨?_, ?_, ?_⟩
  · simp only [ConnectionManager.broadcast_to_conversation, hc]
  · exact congrArg List.length hentry
  · intro c hcm hok hmem
    have : c ∈ conns.filter ok := hentry ▸ hmem
    have := (List.mem_filter.mp this).2
    rw [hok] at this
    cases this

/-- Witness for C2: in a group `[1, 2, 3]` where channel 2's send fails, all
three are attempted in order, the group afterwards holds `[1, 3]`, the count
is 2, and channel 2 is gone. -/
theorem broadcast_prunes_failed_channels_witness :
    ((⟨[(5, [1, 2, 3])]⟩ : ConnectionManager).active_connections.lookup 5
      = some [1, 2, 3]) ∧
    (ConnectionManager.broadcast_to_conversation (fun c => c != 2) 5
        ⟨[(5, [1, 2, 3])]⟩).2 = [(1, true), (2, false), (3, true)] ∧
    ConnectionManager.get_active_connections_count (some 5)
        (ConnectionManager.broadcast_to_conversation (fun c => c != 2) 5
          ⟨[(5, [1, 2, 3])]⟩).1 = 2 ∧
    ((ConnectionManager.broadcast_to_conversation (fun c => c != 2) 5
        ⟨[(5, [1, 2, 3])]⟩).1.active_connections.lookup 5).getD [] = [1, 3] := by
  have hmain := broadcast_prunes_failed_channels (fun c => c != 2) 5
    ⟨[(5, [1, 2, 3])]⟩ [1, 2, 3] (by decide) (by decide)
  refine ⟨by decide, hmain.1.trans (by decide), hmain.2.1.trans (by decide), by decide⟩

namespace ConnectionManager

theorem inv_connect {m : ConnectionManager} (h : Inv m) (w cid : Nat) :
    Inv (connect w cid m) := by
  intro p hp
  unfold connect at hp
  rcases mem_setKey hp with h' | h'
  · exact h p h'
  · rw [h']
    simp

theorem inv_disconnect {m : ConnectionManager} (h : Inv m) (w cid : Nat) :
    Inv (disconnect w cid m) := by
  intro p hp
  cases hl : m.active_connections.lookup cid with
  | none =>
      simp only [disconnect, hl] at hp
      exact h p hp
  | some conns =>
      simp only [disconnect, hl] at hp
      by_cases he : (if w ∈ conns then conns.erase w else conns) = []
      · rw [if_pos he] at hp
        exact h p (mem_of_mem_eraseKey hp)
      · rw [if_neg he] at hp
        rcases mem_setKey hp with h' | h'
        · exact h p h'
        · rw [h']
          exact he

theorem inv_foldl_disconnect {m : ConnectionManager} (h : Inv m) (cid : Nat)
    (fails : List Nat) :
    Inv (fails.foldl (fun mm c => disconnect c cid mm) m) := by
  induction fails generalizing m with
  | nil => exact h
  | cons c t ih =>
      rw [List.foldl_cons]
      exact ih (inv_disconnect h c cid)

theorem inv_broadcast {m : ConnectionManager} (h : Inv m) (ok : Nat → Bool)
    (cid : Nat) : Inv (broadcast_to_conversation ok cid m).1 := by
  cases hl : m.active_connections.lookup cid with
  | none =>
      simp only [broadcast_to_conversation, hl]
      exact h
  | some conns =>
      simp only [broadcast_to_conversation, hl]
      exact inv_foldl_disconnect h cid _

theorem inv_execOp {m : ConnectionManager} (h : Inv m) (op : RegistryOp) :
    Inv (execOp m op) := by
  cases op with
  | join w cid => exact inv_connect h w cid
  | leave w cid => exact inv_disconnect h w cid
  | broadcast ok cid => exact inv_broadcast h ok cid

end ConnectionManager

/-- C8: in every registry state reachable from the empty registry by any
sequence of join, leave and broadcast operations, every conversation id
present in the registry maps to a non-empty group: removing the last channel
of a group (directly through leave, or through a failed delivery during
broadcast) removes the group entry itself. -/
theorem registry_reachable_groups_nonempty (ops : List ConnectionManager.RegistryOp) :
    ConnectionManager.groupsNonempty (ConnectionManager.run ops) = true := by
  have hfold : ∀ (l : List ConnectionManager.RegistryOp) (m : ConnectionManager),
      ConnectionManager.Inv m → ConnectionManager.Inv (l.foldl ConnectionManager.execOp m) := by
    intro l
    induction l with
    | nil => exact fun m h => h
    | cons op t ih =>
        intro m h
        rw [List.foldl_cons]
        exact ih _ (ConnectionManager.inv_execOp h op)
  have hinv : ConnectionManager.Inv (ConnectionManager.run ops) := by
    apply hfold
    intro p hp
    cases hp
  apply List.all_eq_true.mpr
  intro p hp
  have := hinv p hp
  simp only [Bool.not_eq_true']
  apply Bool.eq_false_iff.mpr
  intro hEmpty
  exact this (List.isEmpty_iff.mp hEmpty)

/-- Witness for C8 (the statement quantifies only over operation lists, but we
record a concrete run): after two joins, a failing broadcast and a leave that
empties the second group, no empty group entry remains. -/
theorem registry_reachable_groups_nonempty_witness :
    ConnectionManager.groupsNonempty (ConnectionManager.run
      [ConnectionManager.RegistryOp.join 1 5, ConnectionManager.RegistryOp.join 2 6,
        ConnectionManager.RegistryOp.broadcast (fun c => c != 1) 5,
        ConnectionManager.RegistryOp.leave 2 6]) = true :=
  registry_reachable_groups_nonempty
    [ConnectionManager.RegistryOp.join 1 5, ConnectionManager.RegistryOp.join 2 6,
      ConnectionManager.RegistryOp.broadcast (fun c => c != 1) 5,
      ConnectionManager.RegistryOp.leave 2 6]

theorem minScan_some (d : Nat) (ts : List Nat) :
    minScan (some d) ts = some (ts.foldl min d) := by
  induction ts generalizing d with
  | nil => rfl
  | cons c t ih =>
      rw [show minScan (some d) (c :: t)
          = minScan (if c < d then some c else some d) t from rfl]
      rw [List.foldl_cons]
      by_cases h : c < d
      · rw [if_pos h, ih]
        have hm : min d c = c := by
          rw [Nat.min_def, if_neg (by omega)]
        rw [hm]
      · rw [if_neg h, ih]
        have hm : min d c = d := by
          rw [Nat.min_def, if_pos (by omega)]
        rw [hm]

theorem minScan_none (ts : List Nat) : minScan none ts = ts.min? := by
  cases ts with
  | nil => rfl
  | cons a t =>
      have h0 : minScan none (a :: t) = minScan (some a) t := rfl
      rw [h0, minScan_some]
      rfl

theorem foldl_add_lengths (l : List (Nat × List Message)) (n : Nat) :
    l.foldl (fun t p => t + p.2.length) n = n + (l.map (fun p => p.2.length)).sum := by
  induction l generalizing n with
  | nil => simp
  | cons p t ih =>
      rw [List.foldl_cons, ih, List.map_cons, List.sum_cons]
      omega

theorem statistics_scan (seven : Nat) (l : List (Nat × Conversation)) (r : Nat)
    (o : Option Timestamp) :
    l.foldl
      (fun (acc : Nat × Option Timestamp) p =>
        ((if seven ≤ p.2.created_at then acc.1 + 1 else acc.1),
          match acc.2 with
          | none => some p.2.created_at
          | some d => if p.2.created_at < d then some p.2.created_at else some d)) (r, o)
    = (r + (l.filter (fun p => seven ≤ p.2.created_at)).length,
        minScan o (l.map (fun p => p.2.created_at))) := by
  induction l generalizing r o with
  | nil => simp [minScan]
  | cons p t ih =>
      rw [List.foldl_cons, ih, Prod.mk.injEq]
      refine ⟨?_, rfl⟩
      by_cases hc : seven ≤ p.2.created_at
      · simp [List.filter_cons, hc]
        omega
      · simp [List.filter_cons, hc]

/-- C9 counterexample: a conversation created ten days ago but updated just
now is "updated in the last 7 days" per the claim, yet `get_statistics`
counts by `created_at` and reports 0; and `max_age_days` is the literal 30,
not the configured retention (here 7). -/
theorem statistics_claim_counterexample :
    conversationsUpdatedInLast7Days (10 * usecPerDay)
        ⟨[(1, ⟨"t", none, 0, 10 * usecPerDay⟩)], []⟩ = 1 ∧
    (JSONStorage.get_statistics (10 * usecPerDay)
        ⟨[(1, ⟨"t", none, 0, 10 * usecPerDay⟩)], []⟩).recent_conversations_7_days = 0 ∧
    (JSONStorage.get_statistics (10 * usecPerDay)
        ⟨[(1, ⟨"t", none, 0, 10 * usecPerDay⟩)], []⟩).recent_conversations_7_days
      ≠ conversationsUpdatedInLast7Days (10 * usecPerDay)
          ⟨[(1, ⟨"t", none, 0, 10 * usecPerDay⟩)], []⟩ ∧
    (JSONStorage.get_statistics (10 * usecPerDay)
        ⟨[(1, ⟨"t", none, 0, 10 * usecPerDay⟩)], []⟩).max_age_days
      ≠ (Settings.mk 7 24).max_conversation_age_days := by
  decide

/-- C9 (amended): `get_statistics` returns the total number of conversations,
the total number of messages summed over all conversations, the number of
conversations **created** (not updated) within the last 7 days of the
second-truncated clock, the oldest conversation's `created_at`, and the
constant 30 as the retention threshold (the default), regardless of the
configured `Settings.max_conversation_age_days`. -/
theorem statistics_fields (now : Timestamp) (s : Storage) :
    (JSONStorage.get_statistics now s).total_conversations = s.conversations.length ∧
    (JSONStorage.get_statistics now s).total_messages
      = (s.messages.map (fun p => p.2.length)).sum ∧
    (JSONStorage.get_statistics now s).recent_conversations_7_days
      = (s.conversations.filter
          (fun p => truncToSecond now - 7 * usecPerDay ≤ p.2.created_at)).length ∧
    (JSONStorage.get_statistics now s).oldest_conversation_date
      = (s.conversations.map (fun p => p.2.created_at)).min? ∧
    (JSONStorage.get_statistics now s).max_age_days = 30 := by
  refine ⟨rfl, ?_, ?_, ?_, rfl⟩
  · exact (foldl_add_lengths s.messages 0).trans (Nat.zero_add _)
  · exact (congrArg Prod.fst (statistics_scan (truncToSecond now - 7 * usecPerDay)
      s.conversations 0 none)).trans (Nat.zero_add _)
  · exact (congrArg Prod.snd (statistics_scan (truncToSecond now - 7 * usecPerDay)
      s.conversations 0 none)).trans (minScan_none _)
